import Mathlib

/-!
Shallow embedding of the web-pos transaction-and-inventory engine.

The persistent store (postgres accessed through drizzle) is modelled as a
record of lists of rows.  JavaScript numbers are modelled as exact
rationals (`Rat`).  The numeric(10, 2) and numeric(5, 2) columns of the
schema round every inserted value to scale 2 (half away from zero, the
postgres rule), and `.returning()` yields the rounded stored values; the
embedding applies that rounding (`pgScale2`) wherever a handler writes a
freshly computed number into such a column.  Values that are merely copied
from one scale-2 column into another (an item's unit_price from
selling_price, and total_price = unit_price × integer quantity) are
scale 2 already, so the write-rounding is the identity there and is left
implicit.  Timestamps (`Date`) are modelled as natural numbers.

A handler that runs inside `db.transaction` is modelled as a function
`DBState → Except TxError (DBState × result)`: a thrown error aborts the
database transaction, so an `Except.error` outcome carries no successor
state and the store is left exactly as it was (rollback).

Sources embedded here:
  - createTransaction, updateTransactionStatus, getTodaySalesSummary,
    getMonthlyRevenue from the transactions handler;
  - updateProduct, getProductById from src/server/src/handlers/products.ts;
  - row shapes from src/server/src/db/schema.ts and the zod schemas.
-/

/-- Payment methods, from the paymentMethodEnum of the schema. -/
inductive PaymentMethod where
  | cash
  | card
  | bank_transfer
  | e_wallet
deriving DecidableEq, Repr

/-- Transaction statuses, from the transactionStatusEnum of the schema. -/
inductive TxStatus where
  | pending
  | completed
  | cancelled
deriving DecidableEq, Repr

/-- A row of the products table (src/server/src/db/schema.ts, productsTable). -/
structure Product where
  id : Nat
  name : String
  description : Option String
  barcode : Option String
  category_id : Nat
  purchase_price : Rat
  selling_price : Rat
  stock_quantity : Int
  min_stock : Int
  image_url : Option String
  is_active : Bool
  created_at : Nat
  updated_at : Nat
deriving DecidableEq, Repr

/-- A row of the categories table. -/
structure Category where
  id : Nat
  name : String
  description : Option String
  is_active : Bool
  created_at : Nat
  updated_at : Nat
deriving DecidableEq, Repr

/-- A row of the transactions table. -/
structure Transaction where
  id : Nat
  transaction_number : String
  user_id : Nat
  customer_name : Option String
  subtotal : Rat
  discount_percentage : Rat
  discount_amount : Rat
  tax_percentage : Rat
  tax_amount : Rat
  total_amount : Rat
  payment_method : PaymentMethod
  payment_amount : Rat
  change_amount : Rat
  status : TxStatus
  notes : Option String
  created_at : Nat
  updated_at : Nat
deriving DecidableEq, Repr

/-- A row of the transaction_items table. -/
structure TransactionItem where
  id : Nat
  transaction_id : Nat
  product_id : Nat
  product_name : String
  quantity : Nat
  unit_price : Rat
  total_price : Rat
  created_at : Nat
deriving DecidableEq, Repr

/-- The database state: the tables the embedded handlers touch. -/
structure DBState where
  categories : List Category
  products : List Product
  transactions : List Transaction
  transaction_items : List TransactionItem
deriving DecidableEq, Repr

/-- One line of a cart (transactionItemInputSchema: product_id, positive int
quantity; the positive-integer constraint is zod-enforced before the handler
runs, so quantity is a `Nat` here). -/
structure TransactionItemInput where
  product_id : Nat
  quantity : Nat
deriving DecidableEq, Repr

/-- createTransactionInputSchema. -/
structure CreateTransactionInput where
  customer_name : Option String
  items : List TransactionItemInput
  discount_percentage : Rat
  payment_method : PaymentMethod
  payment_amount : Rat
  notes : Option String
deriving DecidableEq, Repr

/-- updateProductInputSchema: optional fields are `Option`; optional nullable
fields are `Option (Option _)` (outer layer: present in the request at all,
i.e. not `undefined`; inner layer: null or a value). -/
structure UpdateProductInput where
  id : Nat
  name : Option String
  description : Option (Option String)
  barcode : Option (Option String)
  category_id : Option Nat
  purchase_price : Option Rat
  selling_price : Option Rat
  stock_quantity : Option Int
  min_stock : Option Int
  image_url : Option (Option String)
  is_active : Option Bool
deriving DecidableEq, Repr

/-- The errors thrown by the embedded handlers, carrying the data that the
thrown message strings interpolate.  `productRowMissing` models the TypeError
raised when the inner stock re-read (`(await tx.select(...))[0]`) finds no
row; like every throw inside `db.transaction` it aborts and rolls back. -/
inductive TxError where
  | productNotFound (product_id : Nat)
  | insufficientStock (name : String) (available : Int) (required : Nat)
  | transactionNotFound (id : Nat)
  | productRowMissing (product_id : Nat)
  | updateTargetNotFound (id : Nat)
  | categoryNotFound (id : Nat)
  | barcodeTaken (barcode : String)
deriving DecidableEq, Repr

/-- The select `tx.select().from(productsTable).where(eq(productsTable.id, pid))`
followed by taking row `[0]`. -/
def findProduct (s : DBState) (pid : Nat) : Option Product :=
  s.products.find? (fun p => p.id == pid)

/-- The select on transactionsTable keyed by id, followed by taking row
`[0]`. -/
def findTransaction (s : DBState) (tid : Nat) : Option Transaction :=
  s.transactions.find? (fun t => t.id == tid)

/-- The serial primary key handed out for the next inserted row: one more
than the largest id in use. -/
def nextId (ids : List Nat) : Nat :=
  ids.foldr max 0 + 1

/-- The stock counter of the product row with the given id, if present. -/
def stockQ (s : DBState) (pid : Nat) : Option Int :=
  (findProduct s pid).map (·.stock_quantity)

/-- The stock write used by both the sale decrement (transactions handler
lines 108-121) and the cancellation restore (lines 353-366): re-read the
current stock of the row, then set `stock_quantity` to that value plus
`delta` and touch `updated_at`.  If the row is gone the re-read's `[0]`
access throws (modelled by `productRowMissing`). -/
def updateStockBy (now : Nat) (s : DBState) (pid : Nat) (delta : Int) :
    Except TxError DBState :=
  match findProduct s pid with
  | none => .error (.productRowMissing pid)
  | some p =>
      .ok { s with
        products := s.products.map (fun q =>
          if q.id = pid then
            { q with stock_quantity := p.stock_quantity + delta, updated_at := now }
          else q) }

/-- Rounding to the nearest integer, halves away from zero: the rule
postgres applies when a value is stored into a numeric column with a
smaller scale. -/
def roundHalfAway (q : Rat) : Int :=
  if 0 ≤ q then ⌊q + 1/2⌋ else -⌊-q + 1/2⌋

/-- The value a numeric(10, 2) or numeric(5, 2) column stores for an
inserted number: the number rounded to 2 decimal digits, halves away from
zero. -/
def pgScale2 (q : Rat) : Rat :=
  ((roundHalfAway (q * 100) : Int) : Rat) / 100

/-- The data pushed onto `itemsData` for one validated cart line. -/
structure ItemData where
  product_id : Nat
  product_name : String
  quantity : Nat
  unit_price : Rat
  total_price : Rat
deriving DecidableEq, Repr

/-- The validation loop of createTransaction (lines 31-58): for each cart
line in order, look the product up (error `productNotFound` if absent),
check `stock_quantity < quantity` (error `insufficientStock` carrying the
product name and both amounts), and snapshot name, selling_price and the
line total `unit_price * quantity`.  No store write happens here. -/
def validateItems (s : DBState) : List TransactionItemInput → Except TxError (List ItemData)
  | [] => .ok []
  | item :: rest =>
      match findProduct s item.product_id with
      | none => .error (.productNotFound item.product_id)
      | some productData =>
          if productData.stock_quantity < (item.quantity : Int) then
            .error (.insufficientStock productData.name productData.stock_quantity item.quantity)
          else
            match validateItems s rest with
            | .error e => .error e
            | .ok ds =>
                .ok ({ product_id := item.product_id
                       product_name := productData.name
                       quantity := item.quantity
                       unit_price := productData.selling_price
                       total_price := productData.selling_price * (item.quantity : Rat) } :: ds)

/-- The running `subtotal` accumulated by the loop; over exact rationals the
left fold of `+=` equals the list sum. -/
def subtotalOf (ds : List ItemData) : Rat :=
  (ds.map (·.total_price)).sum

/-- The insertion loop of createTransaction (lines 94-121): for each
validated line, insert a transaction_items row and then decrement the
product's stock via the re-read-then-write update. -/
def applyItemsData (now txnId : Nat) (s : DBState) : List ItemData → Except TxError DBState
  | [] => .ok s
  | d :: rest =>
      let newItem : TransactionItem :=
        { id := nextId (s.transaction_items.map (·.id))
          transaction_id := txnId
          product_id := d.product_id
          product_name := d.product_name
          quantity := d.quantity
          unit_price := d.unit_price
          total_price := d.total_price
          created_at := now }
      let s1 := { s with transaction_items := s.transaction_items ++ [newItem] }
      match updateStockBy now s1 d.product_id (-(d.quantity : Int)) with
      | .error e => .error e
      | .ok s2 => applyItemsData now txnId s2 rest

/-- The transaction row inserted by createTransaction (lines 60-89), given
the validated items.  `txnNumber` stands for the generated TXN string
(Date.now() plus a random suffix) and `now` for the insertion clock.  The
amounts are computed exactly as the handler does with raw numbers, but the
inserted row — the one `.returning()` hands back — holds them as the
numeric(10, 2) / numeric(5, 2) columns store them: rounded to scale 2. -/
def mkTransaction (now : Nat) (txnNumber : String) (userId : Nat)
    (input : CreateTransactionInput) (s : DBState) (ds : List ItemData) : Transaction :=
  let subtotal := subtotalOf ds
  let discountAmount := subtotal * input.discount_percentage / 100
  let taxAmount : Rat := 0
  let totalAmount := subtotal - discountAmount + taxAmount
  let changeAmount := max 0 (input.payment_amount - totalAmount)
  { id := nextId (s.transactions.map (·.id))
    transaction_number := txnNumber
    user_id := userId
    customer_name := input.customer_name
    subtotal := pgScale2 subtotal
    discount_percentage := pgScale2 input.discount_percentage
    discount_amount := pgScale2 discountAmount
    tax_percentage := 0
    tax_amount := pgScale2 taxAmount
    total_amount := pgScale2 totalAmount
    payment_method := input.payment_method
    payment_amount := pgScale2 input.payment_amount
    change_amount := pgScale2 changeAmount
    status := .completed
    notes := input.notes
    created_at := now
    updated_at := now }

/-- createTransaction (transactions handler lines 18-140): validate every
line, compute the amounts, insert the transaction row with status
`completed`, then insert the items and decrement stock.  Any error rolls the
whole unit back (the `.error` outcome carries no successor state). -/
def createTransaction (now : Nat) (txnNumber : String) (userId : Nat)
    (input : CreateTransactionInput) (s : DBState) :
    Except TxError (DBState × Transaction) :=
  match validateItems s input.items with
  | .error e => .error e
  | .ok itemsData =>
      let txn := mkTransaction now txnNumber userId input s itemsData
      let s1 := { s with transactions := s.transactions ++ [txn] }
      match applyItemsData now txn.id s1 itemsData with
      | .error e => .error e
      | .ok s2 => .ok (s2, txn)

/-- The committed effect of one createTransaction call: on success the new
state, on failure (rollback) the original state untouched. -/
def runCreateTransaction (now : Nat) (txnNumber : String) (userId : Nat)
    (input : CreateTransactionInput) (s : DBState) : DBState × Option Transaction :=
  match createTransaction now txnNumber userId input s with
  | .ok (s2, t) => (s2, some t)
  | .error _ => (s, none)

/-- The item rows of one transaction:
`select from transactionItemsTable where transaction_id = tid`. -/
def itemsFor (s : DBState) (tid : Nat) : List TransactionItem :=
  s.transaction_items.filter (fun it => it.transaction_id == tid)

/-- The restore loop of updateTransactionStatus (lines 353-366): increment
each item's product stock by the item quantity, in item order. -/
def restoreItems (now : Nat) (s : DBState) : List TransactionItem → Except TxError DBState
  | [] => .ok s
  | it :: rest =>
      match updateStockBy now s it.product_id (it.quantity : Int) with
      | .error e => .error e
      | .ok s1 => restoreItems now s1 rest

/-- updateTransactionStatus (lines 331-398): look the transaction up (error
`transactionNotFound` if absent); if the new status is `cancelled` and the
current status is `completed`, restore stock for every item of the
transaction; finally write the new status and `updated_at` and return the
updated row. -/
def updateTransactionStatus (now : Nat) (id : Nat) (status : TxStatus)
    (s : DBState) : Except TxError (DBState × Transaction) :=
  match findTransaction s id with
  | none => .error (.transactionNotFound id)
  | some current =>
      let step1 : Except TxError DBState :=
        if status = .cancelled ∧ current.status = .completed then
          restoreItems now s (itemsFor s id)
        else .ok s
      match step1 with
      | .error e => .error e
      | .ok s1 =>
          .ok ({ s1 with
                  transactions := s1.transactions.map (fun t =>
                    if t.id = id then { t with status := status, updated_at := now }
                    else t) },
               { current with status := status, updated_at := now })

/-- getProductById (products.ts lines 136-160): the row must match the id
and have `is_active = true`, otherwise the handler reports not-found. -/
def getProductById (s : DBState) (id : Nat) : Option Product :=
  s.products.find? (fun p => p.id == id && p.is_active)

/-- JavaScript truthiness of `input.category_id` (products.ts line 203):
present and nonzero. -/
def truthyNat : Option Nat → Option Nat
  | some n => if n = 0 then none else some n
  | none => none

/-- JavaScript truthiness of `input.barcode` (products.ts line 215): present,
non-null and nonempty. -/
def truthyStr : Option (Option String) → Option String
  | some (some b) => if b = "" then none else some b
  | some none => none
  | none => none

/-- The updateData assignments of updateProduct (products.ts lines
245-258): every field present in the request (not `undefined`) overwrites
the stored value, and `updated_at` is always touched; the two price fields
land in numeric(10, 2) columns, which round them to scale 2. -/
def applyProductUpdates (now : Nat) (input : UpdateProductInput) (p : Product) : Product :=
  { p with
    name := input.name.getD p.name
    description := input.description.getD p.description
    barcode := input.barcode.getD p.barcode
    category_id := input.category_id.getD p.category_id
    purchase_price := (input.purchase_price.map pgScale2).getD p.purchase_price
    selling_price := (input.selling_price.map pgScale2).getD p.selling_price
    stock_quantity := input.stock_quantity.getD p.stock_quantity
    min_stock := input.min_stock.getD p.min_stock
    image_url := input.image_url.getD p.image_url
    is_active := input.is_active.getD p.is_active
    updated_at := now }

/-- updateProduct (products.ts lines 190-277): existence check, category
check when a truthy category_id is supplied, barcode-conflict check when a
truthy barcode is supplied (the first row holding that barcode must be the
product itself), then the field-wise update.  The two earlier barcode
selects of lines 216-231 are dead reads whose results the source never
uses, so they have no counterpart here. -/
def updateProduct (now : Nat) (input : UpdateProductInput) (s : DBState) :
    Except TxError (DBState × Product) :=
  match s.products.find? (fun p => p.id == input.id) with
  | none => .error (.updateTargetNotFound input.id)
  | some existing =>
      let catCheck : Except TxError Unit :=
        match truthyNat input.category_id with
        | some cid =>
            if (s.categories.find? (fun c => c.id == cid)).isSome then .ok ()
            else .error (.categoryNotFound cid)
        | none => .ok ()
      match catCheck with
      | .error e => .error e
      | .ok _ =>
          let barCheck : Except TxError Unit :=
            match truthyStr input.barcode with
            | some b =>
                match s.products.find? (fun p => p.barcode == some b) with
                | some q => if q.id ≠ input.id then .error (.barcodeTaken b) else .ok ()
                | none => .ok ()
            | none => .ok ()
          match barCheck with
          | .error e => .error e
          | .ok _ =>
              .ok ({ s with
                      products := s.products.map (fun q =>
                        if q.id = input.id then applyProductUpdates now input q else q) },
                   applyProductUpdates now input existing)

/-- getTodaySalesSummary (lines 401-431): `todayStart` stands for the local
midnight computed by `today.setHours(0,0,0,0)` and `tomorrowStart` for that
date plus one day; the query filters on status `completed` and
`gte(created_at, today)` AND `lte(created_at, tomorrow)` — both bounds
inclusive — and returns (sum of total_amount, row count), with the SQL NULL
sum of an empty selection reported as 0. -/
def getTodaySalesSummary (todayStart tomorrowStart : Nat) (s : DBState) : Rat × Nat :=
  let rows := s.transactions.filter (fun t =>
    decide (t.status = .completed ∧ todayStart ≤ t.created_at ∧ t.created_at ≤ tomorrowStart))
  ((rows.map (·.total_amount)).sum, rows.length)

/-- getMonthlyRevenue (lines 434-459): `monthStart` stands for the first
instant of the current month and `nextMonthStart` for the first instant of
the next month; the filter again uses inclusive bounds on both ends. -/
def getMonthlyRevenue (monthStart nextMonthStart : Nat) (s : DBState) : Rat :=
  ((s.transactions.filter (fun t =>
    decide (t.status = .completed ∧ monthStart ≤ t.created_at ∧ t.created_at ≤ nextMonthStart))).map
      (·.total_amount)).sum

/-- Modelled from the spec: a timestamp lies in the calendar window that
starts at `lo` when `lo ≤ t < hi`, `hi` being the first instant of the next
day (or month). -/
def specWindowSum (lo hi : Nat) (s : DBState) : Rat :=
  ((s.transactions.filter (fun t =>
    decide (t.status = .completed ∧ lo ≤ t.created_at ∧ t.created_at < hi))).map
      (·.total_amount)).sum

/-- Modelled from the spec: the count companion of `specWindowSum`. -/
def specWindowCount (lo hi : Nat) (s : DBState) : Nat :=
  (s.transactions.filter (fun t =>
    decide (t.status = .completed ∧ lo ≤ t.created_at ∧ t.created_at < hi))).length

/-- Revenue of the completed transactions created at exactly the window's
upper boundary instant. -/
def boundarySum (hi : Nat) (s : DBState) : Rat :=
  ((s.transactions.filter (fun t =>
    decide (t.status = .completed ∧ t.created_at = hi))).map (·.total_amount)).sum

/-- Count of the completed transactions created at exactly the window's
upper boundary instant. -/
def boundaryCount (hi : Nat) (s : DBState) : Nat :=
  (s.transactions.filter (fun t =>
    decide (t.status = .completed ∧ t.created_at = hi))).length

/-- Cart line `l` passes both validation checks against state `s`. -/
def LineOk (s : DBState) (l : TransactionItemInput) : Prop :=
  ∃ p, findProduct s l.product_id = some p ∧ (l.quantity : Int) ≤ p.stock_quantity

instance (s : DBState) (l : TransactionItemInput) : Decidable (LineOk s l) := by
  unfold LineOk
  infer_instance

/-- Referential sanity of the stored items: every transaction_items row
points at an existing transactions row (guaranteed by the insertion path,
which only ever writes items for the transaction it just created). -/
def ItemsWF (s : DBState) : Prop :=
  ∀ it ∈ s.transaction_items, it.transaction_id ∈ s.transactions.map (·.id)

instance (s : DBState) : Decidable (ItemsWF s) := by
  unfold ItemsWF
  infer_instance

/-- The per-product quantity total of a list of item rows. -/
def restoredQty (its : List TransactionItem) (q : Nat) : Int :=
  ((its.filter (fun it => it.product_id == q)).map (fun it => (it.quantity : Int))).sum

/-- The per-product quantity total of a list of validated cart lines. -/
def dataQtySum (ds : List ItemData) (q : Nat) : Int :=
  ((ds.filter (fun d => d.product_id == q)).map (fun d => (d.quantity : Int))).sum

/-- A row update keyed on an id leaves lookups commuting with the update:
finding in the mapped table is mapping the found row, provided the update
preserves the key. -/
theorem find?_map_key {α : Type} (l : List α) (key : α → Nat) (q : Nat) (f : α → α)
    (hid : ∀ a, key (f a) = key a) :
    (l.map f).find? (fun a => key a == q) = (l.find? (fun a => key a == q)).map f := by
  induction l with
  | nil => rfl
  | cons a t ih =>
      simp only [List.map_cons]
      by_cases h : key a = q
      · rw [List.find?_cons_of_pos _ (by simp [hid, h]),
          List.find?_cons_of_pos _ (by simp [h])]
        rfl
      · rw [List.find?_cons_of_neg _ (by simp [hid, h]),
          List.find?_cons_of_neg _ (by simp [h])]
        exact ih

/-- What one re-read-then-write stock update does to every subsequent
lookup. -/
theorem findProduct_updateStockBy {now : Nat} {s s2 : DBState} {pid : Nat} {delta : Int}
    (h : updateStockBy now s pid delta = .ok s2) (q : Nat) :
    findProduct s2 q =
      if q = pid then
        (findProduct s pid).map (fun p =>
          { p with stock_quantity := p.stock_quantity + delta, updated_at := now })
      else findProduct s q := by
  unfold updateStockBy at h
  cases hf : findProduct s pid with
  | none => rw [hf] at h; cases h
  | some p =>
      rw [hf] at h
      cases h
      have hp : p.id = pid := by
        have h1 : List.find? (fun a => a.id == pid) s.products = some p := hf
        simpa using List.find?_some h1
      have hmap : findProduct
          { s with products := s.products.map (fun a =>
              if a.id = pid then
                { a with stock_quantity := p.stock_quantity + delta, updated_at := now }
              else a) } q
          = (s.products.find? (fun a => a.id == q)).map (fun a =>
              if a.id = pid then
                { a with stock_quantity := p.stock_quantity + delta, updated_at := now }
              else a) := by
        exact find?_map_key s.products (fun a => a.id) q _
          (by intro a; dsimp only; split <;> rfl)
      rw [hmap]
      by_cases hq : q = pid
      · subst hq
        have h1 : s.products.find? (fun a => a.id == q) = some p := hf
        rw [if_pos rfl, h1]
        simp only [Option.map_some']
        rw [if_pos hp]
      · rw [if_neg hq]
        cases hfq : s.products.find? (fun a => a.id == q) with
        | none => exact hfq.symm
        | some r =>
            have hr : r.id = q := by simpa using List.find?_some hfq
            have hne : ¬ r.id = pid := by rw [hr]; exact hq
            simp only [Option.map_some']
            rw [if_neg hne]
            exact hfq.symm

/-- A stock update touches nothing but the products table. -/
theorem updateStockBy_frame {now : Nat} {s s2 : DBState} {pid : Nat} {delta : Int}
    (h : updateStockBy now s pid delta = .ok s2) :
    s2.categories = s.categories ∧ s2.transactions = s.transactions ∧
      s2.transaction_items = s.transaction_items := by
  unfold updateStockBy at h
  cases hf : findProduct s pid with
  | none => rw [hf] at h; cases h
  | some p => rw [hf] at h; cases h; exact ⟨rfl, rfl, rfl⟩

/-- How one stock update moves the stock counters. -/
theorem stockQ_updateStockBy {now : Nat} {s s2 : DBState} {pid : Nat} {delta : Int}
    (h : updateStockBy now s pid delta = .ok s2) (q : Nat) :
    stockQ s2 q = if q = pid then (stockQ s q).map (· + delta) else stockQ s q := by
  unfold stockQ
  rw [findProduct_updateStockBy h q]
  by_cases hq : q = pid
  · subst hq
    cases findProduct s q <;> simp
  · rw [if_neg hq, if_neg hq]

/-- A stock update never adds or removes a product row. -/
theorem findProduct_isSome_updateStockBy {now : Nat} {s s2 : DBState} {pid : Nat}
    {delta : Int} (h : updateStockBy now s pid delta = .ok s2) (q : Nat) :
    (findProduct s2 q).isSome = (findProduct s q).isSome := by
  rw [findProduct_updateStockBy h q]
  by_cases hq : q = pid
  · subst hq; cases findProduct s q <;> simp
  · rw [if_neg hq]

/-- A stock update succeeds exactly when the row is present. -/
theorem updateStockBy_exists_ok {now : Nat} {s : DBState} {pid : Nat} {delta : Int}
    (hf : (findProduct s pid).isSome) :
    ∃ s2, updateStockBy now s pid delta = .ok s2 := by
  unfold updateStockBy
  cases hp : findProduct s pid with
  | none => rw [hp] at hf; cases hf
  | some p => exact ⟨_, rfl⟩

/-- Item views: everything one item row carries except its serial id. -/
def itemView (it : TransactionItem) : Nat × Nat × String × Nat × Rat × Rat × Nat :=
  (it.transaction_id, it.product_id, it.product_name, it.quantity, it.unit_price,
   it.total_price, it.created_at)

/-- The view an inserted item row must have, given its validated line. -/
def dataView (now tid : Nat) (d : ItemData) : Nat × Nat × String × Nat × Rat × Rat × Nat :=
  (tid, d.product_id, d.product_name, d.quantity, d.unit_price, d.total_price, now)

theorem restoredQty_cons (it : TransactionItem) (rest : List TransactionItem) (q : Nat) :
    restoredQty (it :: rest) q =
      (if it.product_id = q then (it.quantity : Int) else 0) + restoredQty rest q := by
  unfold restoredQty
  rw [List.filter_cons]
  by_cases h : it.product_id = q
  · simp [h]
  · simp [h]

theorem dataQtySum_cons (d : ItemData) (rest : List ItemData) (q : Nat) :
    dataQtySum (d :: rest) q =
      (if d.product_id = q then (d.quantity : Int) else 0) + dataQtySum rest q := by
  unfold dataQtySum
  rw [List.filter_cons]
  by_cases h : d.product_id = q
  · simp [h]
  · simp [h]

/-- The restore loop increments every product's stock by the per-product
quantity total of the processed items. -/
theorem restoreItems_ok_stock {now : Nat} {its : List TransactionItem} :
    ∀ {s s2 : DBState}, restoreItems now s its = .ok s2 →
      ∀ q, stockQ s2 q = (stockQ s q).map (fun x => x + restoredQty its q) := by
  induction its with
  | nil =>
      intro s s2 h q
      unfold restoreItems at h
      cases h
      cases stockQ s q <;> simp [restoredQty]
  | cons it rest ih =>
      intro s s2 h q
      unfold restoreItems at h
      cases hu : updateStockBy now s it.product_id (it.quantity : Int) with
      | error e => rw [hu] at h; cases h
      | ok s1 =>
          rw [hu] at h
          have h1 := stockQ_updateStockBy hu q
          have h2 := ih h q
          rw [h2, h1, restoredQty_cons]
          by_cases hq : q = it.product_id
          · rw [if_pos hq, if_pos (hq ▸ rfl : it.product_id = q)]
            cases stockQ s q with
            | none => rfl
            | some x => simp; ring
          · rw [if_neg hq, if_neg (fun hc => hq hc.symm)]
            simp

/-- The restore loop touches nothing but the products table. -/
theorem restoreItems_frame {now : Nat} {its : List TransactionItem} :
    ∀ {s s2 : DBState}, restoreItems now s its = .ok s2 →
      s2.categories = s.categories ∧ s2.transactions = s.transactions ∧
        s2.transaction_items = s.transaction_items := by
  induction its with
  | nil =>
      intro s s2 h
      unfold restoreItems at h
      cases h
      exact ⟨rfl, rfl, rfl⟩
  | cons it rest ih =>
      intro s s2 h
      unfold restoreItems at h
      cases hu : updateStockBy now s it.product_id (it.quantity : Int) with
      | error e => rw [hu] at h; cases h
      | ok s1 =>
          rw [hu] at h
          obtain ⟨a1, a2, a3⟩ := updateStockBy_frame hu
          obtain ⟨b1, b2, b3⟩ := ih h
          exact ⟨b1.trans a1, b2.trans a2, b3.trans a3⟩

/-- The restore loop succeeds when every processed item's product row is
present. -/
theorem restoreItems_exists_ok {now : Nat} {its : List TransactionItem} :
    ∀ {s : DBState}, (∀ it ∈ its, (findProduct s it.product_id).isSome) →
      ∃ s2, restoreItems now s its = .ok s2 := by
  induction its with
  | nil => intro s _; exact ⟨s, rfl⟩
  | cons it rest ih =>
      intro s hall
      have hex : ∃ s1, updateStockBy now s it.product_id (it.quantity : Int) = .ok s1 :=
        updateStockBy_exists_ok (hall it (by simp))
      obtain ⟨s1, hs1⟩ := hex
      have hrest : ∀ jt ∈ rest, (findProduct s1 jt.product_id).isSome := by
        intro jt hjt
        rw [findProduct_isSome_updateStockBy hs1]
        exact hall jt (by simp [hjt])
      obtain ⟨s2, hs2⟩ := ih hrest
      refine ⟨s2, ?_⟩
      unfold restoreItems
      rw [hs1]
      exact hs2

/-- The insertion loop decrements every product's stock by the per-product
quantity total of the validated lines. -/
theorem applyItemsData_ok_stock {now tid : Nat} {ds : List ItemData} :
    ∀ {s s2 : DBState}, applyItemsData now tid s ds = .ok s2 →
      ∀ q, stockQ s2 q = (stockQ s q).map (fun x => x - dataQtySum ds q) := by
  induction ds with
  | nil =>
      intro s s2 h q
      unfold applyItemsData at h
      cases h
      cases stockQ s q <;> simp [dataQtySum]
  | cons d rest ih =>
      intro s s2 h q
      unfold applyItemsData at h
      simp only at h
      cases hu : updateStockBy now
          { s with transaction_items := s.transaction_items ++
              [{ id := nextId (s.transaction_items.map (·.id)), transaction_id := tid,
                 product_id := d.product_id, product_name := d.product_name,
                 quantity := d.quantity, unit_price := d.unit_price,
                 total_price := d.total_price, created_at := now }] }
          d.product_id (-(d.quantity : Int)) with
      | error e => rw [hu] at h; cases h
      | ok s1 =>
          rw [hu] at h
          have h1 := stockQ_updateStockBy hu q
          have h2 := ih h q
          have hins : stockQ { s with transaction_items := s.transaction_items ++
              [{ id := nextId (s.transaction_items.map (·.id)), transaction_id := tid,
                 product_id := d.product_id, product_name := d.product_name,
                 quantity := d.quantity, unit_price := d.unit_price,
                 total_price := d.total_price, created_at := now }] } q = stockQ s q := rfl
          rw [h2, h1, hins, dataQtySum_cons]
          by_cases hq : q = d.product_id
          · rw [if_pos hq, if_pos (hq ▸ rfl : d.product_id = q)]
            cases stockQ s q with
            | none => rfl
            | some x => simp; ring
          · rw [if_neg hq, if_neg (fun hc => hq hc.symm)]
            simp

/-- The insertion loop leaves categories and transactions untouched. -/
theorem applyItemsData_frame {now tid : Nat} {ds : List ItemData} :
    ∀ {s s2 : DBState}, applyItemsData now tid s ds = .ok s2 →
      s2.categories = s.categories ∧ s2.transactions = s.transactions := by
  induction ds with
  | nil =>
      intro s s2 h
      unfold applyItemsData at h
      cases h
      exact ⟨rfl, rfl⟩
  | cons d rest ih =>
      intro s s2 h
      unfold applyItemsData at h
      simp only at h
      cases hu : updateStockBy now
          { s with transaction_items := s.transaction_items ++
              [{ id := nextId (s.transaction_items.map (·.id)), transaction_id := tid,
                 product_id := d.product_id, product_name := d.product_name,
                 quantity := d.quantity, unit_price := d.unit_price,
                 total_price := d.total_price, created_at := now }] }
          d.product_id (-(d.quantity : Int)) with
      | error e => rw [hu] at h; cases h
      | ok s1 =>
          rw [hu] at h
          obtain ⟨a1, a2, _⟩ := updateStockBy_frame hu
          obtain ⟨b1, b2⟩ := ih h
          exact ⟨b1.trans a1, b2.trans a2⟩

/-- The insertion loop appends one item row per validated line, in order,
each carrying the transaction id, the snapshot fields and the clock. -/
theorem applyItemsData_ok_items {now tid : Nat} {ds : List ItemData} :
    ∀ {s s2 : DBState}, applyItemsData now tid s ds = .ok s2 →
      ∃ newIts : List TransactionItem,
        s2.transaction_items = s.transaction_items ++ newIts ∧
          newIts.map itemView = ds.map (dataView now tid) := by
  induction ds with
  | nil =>
      intro s s2 h
      unfold applyItemsData at h
      cases h
      exact ⟨[], by simp, by simp⟩
  | cons d rest ih =>
      intro s s2 h
      unfold applyItemsData at h
      simp only at h
      cases hu : updateStockBy now
          { s with transaction_items := s.transaction_items ++
              [{ id := nextId (s.transaction_items.map (·.id)), transaction_id := tid,
                 product_id := d.product_id, product_name := d.product_name,
                 quantity := d.quantity, unit_price := d.unit_price,
                 total_price := d.total_price, created_at := now }] }
          d.product_id (-(d.quantity : Int)) with
      | error e => rw [hu] at h; cases h
      | ok s1 =>
          rw [hu] at h
          obtain ⟨newIts0, hitems, hview⟩ := ih h
          obtain ⟨_, _, hkeep⟩ := updateStockBy_frame hu
          refine ⟨{ id := nextId (s.transaction_items.map (·.id)), transaction_id := tid,
                    product_id := d.product_id, product_name := d.product_name,
                    quantity := d.quantity, unit_price := d.unit_price,
                    total_price := d.total_price, created_at := now } :: newIts0, ?_, ?_⟩
          · rw [hitems, hkeep]
            simp
          · simp only [List.map_cons, hview]
            rfl

/-- The insertion loop succeeds when every validated line's product row is
present. -/
theorem applyItemsData_exists_ok {now tid : Nat} {ds : List ItemData} :
    ∀ {s : DBState}, (∀ d ∈ ds, (findProduct s d.product_id).isSome) →
      ∃ s2, applyItemsData now tid s ds = .ok s2 := by
  induction ds with
  | nil => intro s _; exact ⟨s, rfl⟩
  | cons d rest ih =>
      intro s hall
      have hins : findProduct
          { s with transaction_items := s.transaction_items ++
              [{ id := nextId (s.transaction_items.map (·.id)), transaction_id := tid,
                 product_id := d.product_id, product_name := d.product_name,
                 quantity := d.quantity, unit_price := d.unit_price,
                 total_price := d.total_price, created_at := now }] } d.product_id
          = findProduct s d.product_id := rfl
      have hex : ∃ s1, updateStockBy now
          { s with transaction_items := s.transaction_items ++
              [{ id := nextId (s.transaction_items.map (·.id)), transaction_id := tid,
                 product_id := d.product_id, product_name := d.product_name,
                 quantity := d.quantity, unit_price := d.unit_price,
                 total_price := d.total_price, created_at := now }] }
          d.product_id (-(d.quantity : Int)) = .ok s1 :=
        updateStockBy_exists_ok (by rw [hins]; exact hall d (by simp))
      obtain ⟨s1, hs1⟩ := hex
      have hrest : ∀ jt ∈ rest, (findProduct s1 jt.product_id).isSome := by
        intro jt hjt
        rw [findProduct_isSome_updateStockBy hs1]
        exact hall jt (by simp [hjt])
      obtain ⟨s2, hs2⟩ := ih hrest
      refine ⟨s2, ?_⟩
      unfold applyItemsData
      simp only
      rw [hs1]
      exact hs2

/-- Every validated line snapshots the name, price and exact line total of
the product row found at validation time, and passed the stock check. -/
theorem validateItems_ok_spec {s : DBState} :
    ∀ {items : List TransactionItemInput} {ds : List ItemData},
      validateItems s items = .ok ds →
        ∀ d ∈ ds, ∃ p, findProduct s d.product_id = some p ∧
          d.product_name = p.name ∧ d.unit_price = p.selling_price ∧
          d.total_price = p.selling_price * (d.quantity : Rat) ∧
          (d.quantity : Int) ≤ p.stock_quantity := by
  intro items
  induction items with
  | nil =>
      intro ds h d hd
      unfold validateItems at h
      cases h
      cases hd
  | cons item rest ih =>
      intro ds h d hd
      unfold validateItems at h
      split at h
      · cases h
      · rename_i productData hf
        split at h
        · cases h
        · rename_i hnlt
          split at h
          · cases h
          · rename_i ds0 hr
            cases h
            rcases List.mem_cons.mp hd with hhead | htail
            · subst hhead
              exact ⟨productData, hf, rfl, rfl, rfl, Int.not_lt.mp hnlt⟩
            · exact ih hr d htail

/-- Validation succeeds only when every cart line passes both checks. -/
theorem validateItems_ok_lines {s : DBState} :
    ∀ {items : List TransactionItemInput} {ds : List ItemData},
      validateItems s items = .ok ds → ∀ l ∈ items, LineOk s l := by
  intro items
  induction items with
  | nil => intro ds _ l hl; cases hl
  | cons item rest ih =>
      intro ds h l hl
      unfold validateItems at h
      split at h
      · cases h
      · rename_i productData hf
        split at h
        · cases h
        · rename_i hnlt
          split at h
          · cases h
          · rename_i ds0 hr
            rcases List.mem_cons.mp hl with hhead | htail
            · subst hhead
              exact ⟨productData, hf, Int.not_lt.mp hnlt⟩
            · exact ih hr l htail

/-- A cart with a bad line can only fail. -/
theorem validateItems_error_of_bad {s : DBState} {items : List TransactionItemInput}
    (hbad : ∃ l ∈ items, ¬ LineOk s l) :
    ∃ e, validateItems s items = .error e := by
  cases h : validateItems s items with
  | error e => exact ⟨e, rfl⟩
  | ok ds =>
      obtain ⟨l, hl, hnot⟩ := hbad
      exact absurd (validateItems_ok_lines h l hl) hnot

/-- Validation walks the cart in order: if every line before `bad` passes
its checks and `bad` names an absent product, the loop stops at `bad` with
its `productNotFound` error. -/
theorem validateItems_append_notfound {s : DBState} {bad : TransactionItemInput}
    (rest : List TransactionItemInput)
    (hmiss : findProduct s bad.product_id = none) :
    ∀ pre : List TransactionItemInput, (∀ l ∈ pre, LineOk s l) →
      validateItems s (pre ++ bad :: rest) = .error (.productNotFound bad.product_id) := by
  intro pre
  induction pre with
  | nil =>
      intro _
      rw [List.nil_append]
      unfold validateItems
      rw [hmiss]
  | cons l pre ih =>
      intro hok
      obtain ⟨p, hp, hle⟩ := hok l (by simp)
      have htail := ih (fun x hx => hok x (by simp [hx]))
      rw [List.cons_append]
      unfold validateItems
      rw [hp]
      dsimp only
      rw [if_neg (Int.not_lt.mpr hle), htail]

/-- Validation walks the cart in order: if every line before `bad` passes
its checks and `bad` asks for more than the found row's stock, the loop
stops at `bad` with its `insufficientStock` error. -/
theorem validateItems_append_insufficient {s : DBState} {bad : TransactionItemInput}
    {p : Product} (rest : List TransactionItemInput)
    (hfind : findProduct s bad.product_id = some p)
    (hlt : p.stock_quantity < (bad.quantity : Int)) :
    ∀ pre : List TransactionItemInput, (∀ l ∈ pre, LineOk s l) →
      validateItems s (pre ++ bad :: rest) =
        .error (.insufficientStock p.name p.stock_quantity bad.quantity) := by
  intro pre
  induction pre with
  | nil =>
      intro _
      rw [List.nil_append]
      unfold validateItems
      rw [hfind]
      dsimp only
      rw [if_pos hlt]
  | cons l pre ih =>
      intro hok
      obtain ⟨q, hq, hle⟩ := hok l (by simp)
      have htail := ih (fun x hx => hok x (by simp [hx]))
      rw [List.cons_append]
      unfold validateItems
      rw [hq]
      dsimp only
      rw [if_neg (Int.not_lt.mpr hle), htail]

/-- Destructor for a successful createTransaction run. -/
theorem createTransaction_ok_elim {now : Nat} {tn : String} {uid : Nat}
    {input : CreateTransactionInput} {s s2 : DBState} {txn : Transaction}
    (h : createTransaction now tn uid input s = .ok (s2, txn)) :
    ∃ ds, validateItems s input.items = .ok ds ∧
      txn = mkTransaction now tn uid input s ds ∧
      applyItemsData now txn.id
        { s with transactions := s.transactions ++ [txn] } ds = .ok s2 := by
  unfold createTransaction at h
  split at h
  · cases h
  · rename_i ds hv
    dsimp only at h
    split at h
    · cases h
    · rename_i s3 ha
      cases h
      exact ⟨ds, hv, rfl, ha⟩

/-- Constructor for a successful createTransaction run. -/
theorem createTransaction_ok_intro {now : Nat} {tn : String} {uid : Nat}
    {input : CreateTransactionInput} {s s2 : DBState} {ds : List ItemData}
    (hv : validateItems s input.items = .ok ds)
    (ha : applyItemsData now (mkTransaction now tn uid input s ds).id
      { s with transactions := s.transactions ++ [mkTransaction now tn uid input s ds] } ds
        = .ok s2) :
    createTransaction now tn uid input s = .ok (s2, mkTransaction now tn uid input s ds) := by
  unfold createTransaction
  rw [hv]
  dsimp only
  rw [ha]

/-- A validation error aborts the whole call with that error. -/
theorem createTransaction_error_of_validate {now : Nat} {tn : String} {uid : Nat}
    {input : CreateTransactionInput} {s : DBState} {e : TxError}
    (hv : validateItems s input.items = .error e) :
    createTransaction now tn uid input s = .error e := by
  unfold createTransaction
  rw [hv]

/-- Once validation passes, the insertion loop cannot fail, and the call
returns the computed transaction row. -/
theorem createTransaction_exists_ok {now : Nat} {tn : String} {uid : Nat}
    {input : CreateTransactionInput} {s : DBState} {ds : List ItemData}
    (hv : validateItems s input.items = .ok ds) :
    ∃ s2, createTransaction now tn uid input s = .ok (s2, mkTransaction now tn uid input s ds) := by
  have hpresent : ∀ d ∈ ds,
      (findProduct { s with transactions :=
        s.transactions ++ [mkTransaction now tn uid input s ds] } d.product_id).isSome := by
    intro d hd
    obtain ⟨p, hp, _⟩ := validateItems_ok_spec hv d hd
    show (findProduct s d.product_id).isSome
    rw [hp]; rfl
  obtain ⟨s2, hs2⟩ := applyItemsData_exists_ok hpresent
  exact ⟨s2, createTransaction_ok_intro hv hs2⟩

/-- Ids in a table never reach the next serial value. -/
theorem mem_lt_nextId {a : Nat} {ids : List Nat} (h : a ∈ ids) : a < nextId ids := by
  unfold nextId
  have : a ≤ ids.foldr max 0 := by
    induction ids with
    | nil => cases h
    | cons b t ih =>
        rcases List.mem_cons.mp h with hb | ht
        · subst hb; exact le_max_left _ _
        · exact le_trans (ih ht) (le_max_right _ _)
  omega

/-- View equality forces the per-product quantity totals to agree. -/
theorem view_restoredQty {now tid : Nat} :
    ∀ {its : List TransactionItem} {ds : List ItemData},
      its.map itemView = ds.map (dataView now tid) →
        ∀ q, restoredQty its q = dataQtySum ds q := by
  intro its
  induction its with
  | nil =>
      intro ds h q
      have : ds = [] := by
        cases ds with
        | nil => rfl
        | cons d t => simp at h
      subst this
      rfl
  | cons it rest ih =>
      intro ds h q
      cases ds with
      | nil => simp at h
      | cons d t =>
          simp only [List.map_cons, List.cons.injEq] at h
          obtain ⟨hhead, htail⟩ := h
          unfold itemView dataView at hhead
          simp only [Prod.mk.injEq] at hhead
          obtain ⟨_, hpid, _, hqty, _⟩ := hhead
          rw [restoredQty_cons, dataQtySum_cons, hpid, hqty, ih htail q]

/-- View equality gives each inserted row a matching validated line. -/
theorem view_mem {now tid : Nat} :
    ∀ {its : List TransactionItem} {ds : List ItemData},
      its.map itemView = ds.map (dataView now tid) →
        ∀ it ∈ its, it.transaction_id = tid ∧ it.created_at = now ∧
          ∃ d ∈ ds, it.product_id = d.product_id ∧ it.product_name = d.product_name ∧
            it.quantity = d.quantity ∧ it.unit_price = d.unit_price ∧
            it.total_price = d.total_price := by
  intro its
  induction its with
  | nil => intro ds _ it hit; cases hit
  | cons jt rest ih =>
      intro ds h it hit
      cases ds with
      | nil => simp at h
      | cons d t =>
          simp only [List.map_cons, List.cons.injEq] at h
          obtain ⟨hhead, htail⟩ := h
          unfold itemView dataView at hhead
          simp only [Prod.mk.injEq] at hhead
          obtain ⟨htid, hpid, hname, hqty, hunit, htot, hcreated⟩ := hhead
          rcases List.mem_cons.mp hit with hh | ht
          · subst hh
            exact ⟨htid, hcreated, d, by simp, hpid, hname, hqty, hunit, htot⟩
          · obtain ⟨a, b, d0, hd0, rest0⟩ := ih htail it ht
            exact ⟨a, b, d0, by simp [hd0], rest0⟩

/-- View equality forces the line-total sums to agree. -/
theorem view_totalSum {now tid : Nat} :
    ∀ {its : List TransactionItem} {ds : List ItemData},
      its.map itemView = ds.map (dataView now tid) →
        (its.map (·.total_price)).sum = (ds.map (·.total_price)).sum := by
  intro its
  induction its with
  | nil =>
      intro ds h
      have : ds = [] := by
        cases ds with
        | nil => rfl
        | cons d t => simp at h
      subst this
      rfl
  | cons it rest ih =>
      intro ds h
      cases ds with
      | nil => simp at h
      | cons d t =>
          simp only [List.map_cons, List.cons.injEq] at h
          obtain ⟨hhead, htail⟩ := h
          unfold itemView dataView at hhead
          simp only [Prod.mk.injEq] at hhead
          obtain ⟨_, _, _, _, _, htot, _⟩ := hhead
          simp only [List.map_cons, List.sum_cons, htot, ih htail]

/-- Cancelling a completed transaction restores stock by the per-product
quantity totals of the transaction's stored items. -/
theorem updateTransactionStatus_restore {now id : Nat} {s sr : DBState}
    {t rt : Transaction} (ht : findTransaction s id = some t)
    (hc : t.status = .completed)
    (h : updateTransactionStatus now id .cancelled s = .ok (sr, rt)) :
    ∀ q, stockQ sr q = (stockQ s q).map (fun x => x + restoredQty (itemsFor s id) q) := by
  intro q
  unfold updateTransactionStatus at h
  rw [ht] at h
  dsimp only at h
  rw [if_pos ⟨rfl, hc⟩] at h
  split at h
  · cases h
  · rename_i s1 heq
    cases h
    show stockQ s1 q = _
    exact restoreItems_ok_stock heq q

/-- Any transition that is not completed-to-cancelled writes only the new
status and `updated_at` of the target row: products and items untouched. -/
theorem updateTransactionStatus_other {now id : Nat} {s : DBState} {t : Transaction}
    {ns : TxStatus} (ht : findTransaction s id = some t)
    (hno : ¬(ns = .cancelled ∧ t.status = .completed)) :
    updateTransactionStatus now id ns s = .ok
      ({ s with transactions := s.transactions.map (fun u =>
          if u.id = id then { u with status := ns, updated_at := now } else u) },
       { t with status := ns, updated_at := now }) := by
  unfold updateTransactionStatus
  rw [ht]
  dsimp only
  rw [if_neg hno]

/-- Cancellation of a found transaction succeeds whenever every stored item
of the transaction still has its product row. -/
theorem updateTransactionStatus_cancel_exists {now id : Nat} {s : DBState}
    {t : Transaction} (ht : findTransaction s id = some t)
    (hpres : ∀ it ∈ itemsFor s id, (findProduct s it.product_id).isSome) :
    ∃ sr rt, updateTransactionStatus now id .cancelled s = .ok (sr, rt) := by
  unfold updateTransactionStatus
  rw [ht]
  dsimp only
  by_cases hc : t.status = .completed
  · rw [if_pos ⟨rfl, hc⟩]
    obtain ⟨s1, hs1⟩ := restoreItems_exists_ok hpres
    rw [hs1]
    exact ⟨_, _, rfl⟩
  · rw [if_neg (fun hand => hc hand.2)]
    exact ⟨_, _, rfl⟩

/-- Appending a fresh row and looking its id up finds exactly that row when
no earlier row carries the id. -/
theorem findTransaction_append_new {old : List Transaction} {t : Transaction}
    {tid : Nat} (hold : ∀ u ∈ old, u.id ≠ tid) (htid : t.id = tid)
    (s : DBState) (hs : s.transactions = old ++ [t]) :
    findTransaction s tid = some t := by
  unfold findTransaction
  rw [hs]
  clear hs
  induction old with
  | nil => simp [htid]
  | cons u rest ih =>
      rw [List.cons_append, List.find?_cons_of_neg _ (by simp [hold u (by simp)])]
      exact ih (fun v hv => hold v (by simp [hv]))

/-- Filtering on the new transaction id keeps exactly the new rows. -/
theorem filter_new_items {old newIts : List TransactionItem} {tid : Nat}
    (hold : ∀ it ∈ old, it.transaction_id ≠ tid)
    (hnew : ∀ it ∈ newIts, it.transaction_id = tid) :
    (old ++ newIts).filter (fun it => it.transaction_id == tid) = newIts := by
  rw [List.filter_append]
  rw [List.filter_eq_nil_iff.mpr (by intro it hit; simp [hold it hit])]
  rw [List.filter_eq_self.mpr (by intro it hit; simp [hnew it hit])]
  simp

/-- Everything a successful createTransaction run does, in one package: the
validated lines, the returned row, the appended item rows (exactly the new
transaction's), the appended transaction row, and the stock decrements. -/
theorem createTransaction_new_items {now : Nat} {tn : String} {uid : Nat}
    {input : CreateTransactionInput} {s s2 : DBState} {txn : Transaction}
    (hWF : ItemsWF s)
    (h : createTransaction now tn uid input s = .ok (s2, txn)) :
    ∃ ds newIts, validateItems s input.items = .ok ds ∧
      txn = mkTransaction now tn uid input s ds ∧
      s2.transaction_items = s.transaction_items ++ newIts ∧
      newIts.map itemView = ds.map (dataView now txn.id) ∧
      itemsFor s2 txn.id = newIts ∧
      s2.transactions = s.transactions ++ [txn] ∧
      findTransaction s2 txn.id = some txn ∧
      (∀ q, stockQ s2 q = (stockQ s q).map (fun x => x - dataQtySum ds q)) := by
  obtain ⟨ds, hv, htxn, ha⟩ := createTransaction_ok_elim h
  obtain ⟨newIts, hitems0, hview⟩ := applyItemsData_ok_items ha
  have hitems : s2.transaction_items = s.transaction_items ++ newIts := hitems0
  obtain ⟨_, htrans0⟩ := applyItemsData_frame ha
  have htrans : s2.transactions = s.transactions ++ [txn] := htrans0
  have hid : txn.id = nextId (s.transactions.map (·.id)) := by rw [htxn]; rfl
  have hold : ∀ it ∈ s.transaction_items, it.transaction_id ≠ txn.id := by
    intro it hit
    have hin : it.transaction_id ∈ s.transactions.map (·.id) := hWF it hit
    have hlt := mem_lt_nextId hin
    rw [hid]
    exact Nat.ne_of_lt hlt
  have hnew : ∀ it ∈ newIts, it.transaction_id = txn.id := fun it hit =>
    (view_mem hview it hit).1
  have hIF : itemsFor s2 txn.id = newIts := by
    unfold itemsFor
    rw [hitems]
    exact filter_new_items hold hnew
  have hfindt : findTransaction s2 txn.id = some txn := by
    refine findTransaction_append_new ?_ rfl s2 htrans
    intro u hu
    have hm : u.id ∈ s.transactions.map (·.id) := List.mem_map_of_mem _ hu
    have hlt := mem_lt_nextId hm
    rw [hid]
    exact Nat.ne_of_lt hlt
  have hstock : ∀ q, stockQ s2 q = (stockQ s q).map (fun x => x - dataQtySum ds q) := by
    intro q
    exact applyItemsData_ok_stock ha q
  exact ⟨ds, newIts, hv, htxn, hitems, hview, hIF, htrans, hfindt, hstock⟩

/-- A catalog row used by the concrete scenarios: 5 units in stock, sold at
5.00 apiece. -/
def exProduct1 : Product :=
  { id := 1, name := "Widget", description := none, barcode := none, category_id := 1,
    purchase_price := 3, selling_price := 5, stock_quantity := 5, min_stock := 0,
    image_url := none, is_active := true, created_at := 0, updated_at := 0 }

/-- A store holding just that product. -/
def exState : DBState :=
  { categories := [], products := [exProduct1], transactions := [], transaction_items := [] }

/-- A cart listing the same product on two lines of 3 units each: each line
alone fits the 5 units in stock, but together they do not. -/
def dupCart : CreateTransactionInput :=
  { customer_name := none, items := [⟨1, 3⟩, ⟨1, 3⟩], discount_percentage := 0,
    payment_method := .cash, payment_amount := 100, notes := none }

/-- A cart whose first line over-asks stock and whose second line names an
absent product. -/
def cart3 : CreateTransactionInput :=
  { customer_name := none, items := [⟨1, 10⟩, ⟨2, 1⟩], discount_percentage := 0,
    payment_method := .cash, payment_amount := 100, notes := none }

/-- A cart whose first line names an absent product and whose second line
over-asks stock. -/
def cart4 : CreateTransactionInput :=
  { customer_name := none, items := [⟨2, 1⟩, ⟨1, 10⟩], discount_percentage := 0,
    payment_method := .cash, payment_amount := 100, notes := none }

/-- C1: starting from stock 5 (≥ 0 everywhere), the duplicate-line cart is
accepted — every line is checked against the pre-sale stock before any
decrement — and the two sequential decrements drive the product's stock to
−1, violating the never-below-zero invariant. -/
theorem stock_goes_negative_on_duplicate_lines :
    (createTransaction 0 "TXN-1" 1 dupCart exState).toOption.map (fun r => stockQ r.1 1)
      = some (some (-1)) := by decide

/-- C3 counterexample: this cart contains a line naming the absent product
2, yet the call fails with the insufficient-stock error of the earlier
line, not with product-not-found. -/
theorem missing_product_error_shadowed_by_stock_check :
    ((⟨2, 1⟩ : TransactionItemInput) ∈ cart3.items ∧ findProduct exState 2 = none) ∧
      createTransaction 0 "TXN-2" 1 cart3 exState =
        .error (.insufficientStock "Widget" 5 10) :=
  ⟨⟨by decide, by decide⟩, rfl⟩

/-- C4 counterexample: this cart contains a line whose requested quantity 10
exceeds product 1's stock 5, yet the call fails with the product-not-found
error of the earlier line, not with insufficient-stock. -/
theorem insufficient_stock_error_shadowed_by_missing_product :
    ((⟨1, 10⟩ : TransactionItemInput) ∈ cart4.items ∧
        findProduct exState 1 = some exProduct1 ∧
        exProduct1.stock_quantity < ((10 : Nat) : Int)) ∧
      createTransaction 0 "TXN-3" 1 cart4 exState = .error (.productNotFound 2) :=
  ⟨⟨by decide, by decide, by decide⟩, rfl⟩

/-- A completed transaction created exactly at the first instant of the
next calendar day (timestamp 100 when the day is [0, 100)). -/
def boundaryTxn : Transaction :=
  { id := 1, transaction_number := "TXN-B", user_id := 1, customer_name := none,
    subtotal := 50, discount_percentage := 0, discount_amount := 0, tax_percentage := 0,
    tax_amount := 0, total_amount := 50, payment_method := .cash, payment_amount := 50,
    change_amount := 0, status := .completed, notes := none, created_at := 100,
    updated_at := 100 }

/-- A store holding just that boundary transaction. -/
def boundaryState : DBState :=
  { categories := [], products := [], transactions := [boundaryTxn], transaction_items := [] }

/-- C7 counterexample: the completed transaction created at the first
instant of the next day (outside the calendar day [0, 100)) is nevertheless
counted by both aggregates, because the queries use an inclusive upper
bound. -/
theorem revenue_includes_upper_boundary_instant :
    (getTodaySalesSummary 0 100 boundaryState).1 = 50 ∧
      specWindowSum 0 100 boundaryState = 0 ∧
      getMonthlyRevenue 0 100 boundaryState = 50 := by
  refine ⟨?_, by decide, ?_⟩
  · show (boundaryTxn.total_amount + 0 : Rat) = 50
    norm_num [boundaryTxn]
  · show (boundaryTxn.total_amount + 0 : Rat) = 50
    norm_num [boundaryTxn]

/-- C2: cancelling a completed transaction increments each involved
product's stock by exactly the per-product total of that transaction's item
quantities; every other (old status, new status) pair writes only the new
status and `updated_at` of the target transaction and leaves products and
items untouched; and with no interleaved operations, cancelling right after
creation restores every product's stock to its pre-transaction value, so a
second cancellation (now from status cancelled) has no stock effect. -/
theorem updateTransactionStatus_stock_semantics
    (now now2 : Nat) (s sr s1 s3 : DBState) (t rt txn rt2 : Transaction)
    (id : Nat) (ns : TxStatus) (tn : String) (uid : Nat)
    (input : CreateTransactionInput) (pid : Nat) :
    (findTransaction s id = some t → t.status = .completed →
      updateTransactionStatus now id .cancelled s = .ok (sr, rt) →
      stockQ sr pid = (stockQ s pid).map (fun x => x + restoredQty (itemsFor s id) pid))
    ∧ (findTransaction s id = some t → ¬(ns = .cancelled ∧ t.status = .completed) →
      updateTransactionStatus now id ns s = .ok
        ({ s with transactions := s.transactions.map (fun u =>
            if u.id = id then { u with status := ns, updated_at := now } else u) },
         { t with status := ns, updated_at := now }))
    ∧ (ItemsWF s → createTransaction now tn uid input s = .ok (s1, txn) →
      updateTransactionStatus now2 txn.id .cancelled s1 = .ok (s3, rt2) →
      stockQ s3 pid = stockQ s pid) := by
  refine ⟨?_, ?_, ?_⟩
  · intro ht hc h
    exact updateTransactionStatus_restore ht hc h pid
  · intro ht hno
    exact updateTransactionStatus_other ht hno
  · intro hWF hcreate hcancel
    obtain ⟨ds, newIts, hv, htxn, hitems, hview, hIF, htrans, hfindt, hstock⟩ :=
      createTransaction_new_items hWF hcreate
    have hstat : txn.status = .completed := by rw [htxn]; rfl
    have hrq := updateTransactionStatus_restore hfindt hstat hcancel pid
    have heqq : restoredQty (itemsFor s1 txn.id) pid = dataQtySum ds pid := by
      rw [hIF]
      exact view_restoredQty hview pid
    rw [hrq, heqq, hstock pid]
    cases stockQ s pid with
    | none => rfl
    | some x =>
        simp only [Option.map_some', Option.some.injEq]
        ring

/-- The catalog row of the cancellation scenario: 8 units in stock after a
2-unit sale. -/
def wProduct : Product := { exProduct1 with stock_quantity := 8 }

/-- A stored completed transaction over 2 units of product 1. -/
def wTxnCompleted : Transaction :=
  { id := 1, transaction_number := "TXN-A", user_id := 1, customer_name := none,
    subtotal := 10, discount_percentage := 0, discount_amount := 0, tax_percentage := 0,
    tax_amount := 0, total_amount := 10, payment_method := .cash, payment_amount := 10,
    change_amount := 0, status := .completed, notes := none, created_at := 0,
    updated_at := 0 }

/-- The stored item row of that transaction. -/
def wItem : TransactionItem :=
  { id := 1, transaction_id := 1, product_id := 1, product_name := "Widget",
    quantity := 2, unit_price := 5, total_price := 10, created_at := 0 }

/-- The store as it looks right after that sale. -/
def wStateA : DBState :=
  { categories := [], products := [wProduct], transactions := [wTxnCompleted],
    transaction_items := [wItem] }

/-- Result of cancelling the stored completed transaction. -/
def wCancelA : DBState × Transaction :=
  ((updateTransactionStatus 7 1 .cancelled wStateA).toOption).getD (wStateA, wTxnCompleted)

/-- A 2-unit cart for the create-then-cancel round trip. -/
def wCartC : CreateTransactionInput :=
  { customer_name := none, items := [⟨1, 2⟩], discount_percentage := 0,
    payment_method := .cash, payment_amount := 100, notes := none }

/-- Result of creating that sale against the 5-unit store. -/
def wCreateC : DBState × Transaction :=
  ((createTransaction 3 "TXN-C" 1 wCartC exState).toOption).getD (exState, wTxnCompleted)

/-- Result of cancelling the freshly created sale. -/
def wCancelC : DBState × Transaction :=
  ((updateTransactionStatus 4 wCreateC.2.id .cancelled wCreateC.1).toOption).getD
    (exState, wTxnCompleted)

theorem updateTransactionStatus_stock_semantics_witness :
    (stockQ wCancelA.1 1 =
      (stockQ wStateA 1).map (fun x => x + restoredQty (itemsFor wStateA 1) 1))
    ∧ updateTransactionStatus 7 1 .pending wStateA = .ok
        ({ wStateA with transactions := wStateA.transactions.map (fun u =>
            if u.id = 1 then { u with status := .pending, updated_at := 7 } else u) },
         { wTxnCompleted with status := .pending, updated_at := 7 })
    ∧ stockQ wCancelC.1 1 = stockQ exState 1 :=
  ⟨(updateTransactionStatus_stock_semantics 7 0 wStateA wCancelA.1 exState exState
      wTxnCompleted wCancelA.2 wTxnCompleted wTxnCompleted 1 .pending "x" 1 wCartC 1).1
      rfl rfl rfl,
   (updateTransactionStatus_stock_semantics 7 0 wStateA wCancelA.1 exState exState
      wTxnCompleted wCancelA.2 wTxnCompleted wTxnCompleted 1 .pending "x" 1 wCartC 1).2.1
      rfl (by decide),
   (updateTransactionStatus_stock_semantics 3 4 exState exState wCreateC.1 wCancelC.1
      wTxnCompleted wTxnCompleted wCreateC.2 wCancelC.2 0 .pending "TXN-C" 1 wCartC 1).2.2
      (by decide) rfl rfl⟩

/-- C3 (amended): a cart containing a line with an absent product id always
fails and persists nothing — the rolled-back run returns the untouched
store; the error is `productNotFound` for that line provided every earlier
line passes its own existence and stock checks (an earlier failing line
yields its own error instead). -/
theorem createTransaction_missing_product_fails
    (now : Nat) (tn : String) (uid : Nat) (input : CreateTransactionInput)
    (s : DBState) (pre rest : List TransactionItemInput) (bad : TransactionItemInput) :
    (input.items = pre ++ bad :: rest → (∀ l ∈ pre, LineOk s l) →
      findProduct s bad.product_id = none →
      createTransaction now tn uid input s = .error (.productNotFound bad.product_id) ∧
        runCreateTransaction now tn uid input s = (s, none))
    ∧ ((∃ l ∈ input.items, findProduct s l.product_id = none) →
      ∃ e, createTransaction now tn uid input s = .error e ∧
        runCreateTransaction now tn uid input s = (s, none)) := by
  constructor
  · intro hsplit hok hmiss
    have hv : validateItems s input.items = .error (.productNotFound bad.product_id) := by
      rw [hsplit]
      exact validateItems_append_notfound rest hmiss pre hok
    have hc : createTransaction now tn uid input s =
        .error (.productNotFound bad.product_id) :=
      createTransaction_error_of_validate hv
    refine ⟨hc, ?_⟩
    unfold runCreateTransaction
    rw [hc]
  · intro hbad
    obtain ⟨l, hl, hmiss⟩ := hbad
    have hnot : ¬ LineOk s l := by
      intro hok
      obtain ⟨p, hp, _⟩ := hok
      rw [hmiss] at hp
      cases hp
    obtain ⟨e, he⟩ := validateItems_error_of_bad ⟨l, hl, hnot⟩
    have hc : createTransaction now tn uid input s = .error e :=
      createTransaction_error_of_validate he
    refine ⟨e, hc, ?_⟩
    unfold runCreateTransaction
    rw [hc]

theorem createTransaction_missing_product_fails_witness :
    (createTransaction 0 "TXN-5" 1 cart4 exState = .error (.productNotFound 2) ∧
      runCreateTransaction 0 "TXN-5" 1 cart4 exState = (exState, none))
    ∧ ∃ e, createTransaction 0 "TXN-5" 1 cart4 exState = .error e ∧
        runCreateTransaction 0 "TXN-5" 1 cart4 exState = (exState, none) :=
  ⟨(createTransaction_missing_product_fails 0 "TXN-5" 1 cart4 exState [] [⟨1, 10⟩]
      ⟨2, 1⟩).1 rfl (by intro l hl; cases hl) (by decide),
   (createTransaction_missing_product_fails 0 "TXN-5" 1 cart4 exState [] [⟨1, 10⟩]
      ⟨2, 1⟩).2 ⟨⟨2, 1⟩, by decide, by decide⟩⟩

/-- C4 (amended): a cart containing a line whose requested quantity exceeds
the found product's stock always fails and persists nothing — the
rolled-back run returns the untouched store, so no partial decrement is
observable; the error is `insufficientStock`, naming the product and both
amounts, provided every earlier line passes its own checks (an earlier
failing line yields its own error instead). -/
theorem createTransaction_insufficient_stock_fails
    (now : Nat) (tn : String) (uid : Nat) (input : CreateTransactionInput)
    (s : DBState) (pre rest : List TransactionItemInput) (bad : TransactionItemInput)
    (p : Product) :
    (input.items = pre ++ bad :: rest → (∀ l ∈ pre, LineOk s l) →
      findProduct s bad.product_id = some p → p.stock_quantity < (bad.quantity : Int) →
      createTransaction now tn uid input s =
        .error (.insufficientStock p.name p.stock_quantity bad.quantity) ∧
        runCreateTransaction now tn uid input s = (s, none))
    ∧ ((∃ l ∈ input.items, ∃ p2, findProduct s l.product_id = some p2 ∧
          p2.stock_quantity < (l.quantity : Int)) →
      ∃ e, createTransaction now tn uid input s = .error e ∧
        runCreateTransaction now tn uid input s = (s, none)) := by
  constructor
  · intro hsplit hok hfind hlt
    have hv : validateItems s input.items =
        .error (.insufficientStock p.name p.stock_quantity bad.quantity) := by
      rw [hsplit]
      exact validateItems_append_insufficient rest hfind hlt pre hok
    have hc : createTransaction now tn uid input s =
        .error (.insufficientStock p.name p.stock_quantity bad.quantity) :=
      createTransaction_error_of_validate hv
    refine ⟨hc, ?_⟩
    unfold runCreateTransaction
    rw [hc]
  · intro hbad
    obtain ⟨l, hl, p2, hp2, hlt⟩ := hbad
    have hnot : ¬ LineOk s l := by
      intro hok
      obtain ⟨p3, hp3, hle⟩ := hok
      rw [hp2] at hp3
      cases hp3
      omega
    obtain ⟨e, he⟩ := validateItems_error_of_bad ⟨l, hl, hnot⟩
    have hc : createTransaction now tn uid input s = .error e :=
      createTransaction_error_of_validate he
    refine ⟨e, hc, ?_⟩
    unfold runCreateTransaction
    rw [hc]

theorem createTransaction_insufficient_stock_fails_witness :
    (createTransaction 0 "TXN-6" 1 cart3 exState =
        .error (.insufficientStock "Widget" 5 10) ∧
      runCreateTransaction 0 "TXN-6" 1 cart3 exState = (exState, none))
    ∧ ∃ e, createTransaction 0 "TXN-6" 1 cart3 exState = .error e ∧
        runCreateTransaction 0 "TXN-6" 1 cart3 exState = (exState, none) :=
  ⟨(createTransaction_insufficient_stock_fails 0 "TXN-6" 1 cart3 exState [] [⟨2, 1⟩]
      ⟨1, 10⟩ exProduct1).1 rfl (by intro l hl; cases hl) rfl (by decide),
   (createTransaction_insufficient_stock_fails 0 "TXN-6" 1 cart3 exState [] [⟨2, 1⟩]
      ⟨1, 10⟩ exProduct1).2 ⟨⟨1, 10⟩, by decide, exProduct1, rfl, by decide⟩⟩

/-- A single-unit cart with a discount percentage of 0.1 (valid for the
zod bound 0 ≤ pct ≤ 100), whose exact discount 5.00 × 0.1 / 100 = 0.005 is
not a scale-2 value. -/
def cartHalf : CreateTransactionInput :=
  { customer_name := none, items := [⟨1, 1⟩], discount_percentage := 1/10,
    payment_method := .cash, payment_amount := 100, notes := none }

/-- C5 counterexample: the returned row holds the column-rounded values, on
which the claimed identity fails — the stored discount is 0.01 while
subtotal × discount_percentage / 100 of the returned row is 0.005. -/
theorem pricing_identity_fails_after_column_rounding :
    (createTransaction 0 "TXN-D" 1 cartHalf exState).toOption.map
        (fun r => (r.2.discount_amount, r.2.subtotal * r.2.discount_percentage / 100))
      = some ((1 : Rat)/100, (1 : Rat)/200) ∧
    (1 : Rat)/100 ≠ (1 : Rat)/200 := by
  constructor
  · have h0 : (createTransaction 0 "TXN-D" 1 cartHalf exState).toOption.map
        (fun r => (r.2.discount_amount, r.2.subtotal * r.2.discount_percentage / 100))
        = some (pgScale2 ((5 * ((1 : Nat) : Rat) + 0) * ((1 : Rat)/10) / 100),
            pgScale2 (5 * ((1 : Nat) : Rat) + 0) * pgScale2 ((1 : Rat)/10) / 100) := rfl
    rw [h0]
    norm_num [pgScale2, roundHalfAway]
  · norm_num

/-- C5 (amended): the amounts computed by createTransaction satisfy the
pricing identities exactly — the exact subtotal is the sum of the persisted
line totals, each line total is unit price times quantity, the exact
discount is subtotal × pct / 100, tax is 0, the exact total is
subtotal − discount + tax, the exact change is max(0, payment − total) —
and every monetary field of the returned row is the numeric-column scale-2
rounding of its exact amount (discount_percentage and payment_amount
likewise), so on the returned values the identities hold only up to that
rounding. -/
theorem createTransaction_pricing_identities
    (now : Nat) (tn : String) (uid : Nat) (input : CreateTransactionInput)
    (s s2 : DBState) (txn : Transaction) (ds : List ItemData)
    (hWF : ItemsWF s)
    (hv : validateItems s input.items = .ok ds)
    (h : createTransaction now tn uid input s = .ok (s2, txn)) :
    subtotalOf ds = ((itemsFor s2 txn.id).map (·.total_price)).sum ∧
    txn.subtotal = pgScale2 (subtotalOf ds) ∧
    txn.discount_percentage = pgScale2 input.discount_percentage ∧
    txn.discount_amount = pgScale2 (subtotalOf ds * input.discount_percentage / 100) ∧
    txn.tax_amount = 0 ∧
    txn.total_amount = pgScale2
      (subtotalOf ds - subtotalOf ds * input.discount_percentage / 100 + 0) ∧
    txn.payment_amount = pgScale2 input.payment_amount ∧
    txn.change_amount = pgScale2 (max 0 (input.payment_amount -
      (subtotalOf ds - subtotalOf ds * input.discount_percentage / 100 + 0))) ∧
    (∀ it ∈ itemsFor s2 txn.id, it.total_price = it.unit_price * (it.quantity : Rat)) := by
  obtain ⟨ds2, newIts, hv2, htxn, hitems, hview, hIF, htrans, hfindt, hstock⟩ :=
    createTransaction_new_items hWF h
  rw [hv] at hv2
  cases hv2
  refine ⟨?_, ?_, ?_, ?_, ?_, ?_, ?_, ?_, ?_⟩
  · rw [hIF]
    exact (view_totalSum hview).symm
  · rw [htxn]; rfl
  · rw [htxn]; rfl
  · rw [htxn]; rfl
  · rw [htxn]
    show pgScale2 0 = 0
    norm_num [pgScale2, roundHalfAway]
  · rw [htxn]; rfl
  · rw [htxn]; rfl
  · rw [htxn]; rfl
  · intro it hit
    rw [hIF] at hit
    obtain ⟨_, _, d, hd, _, _, hqty, hunit, htot⟩ := view_mem hview it hit
    obtain ⟨p, _, _, hdunit, hdtot, _⟩ := validateItems_ok_spec hv d hd
    rw [htot, hunit, hqty, hdtot, hdunit]

/-- A priced cart for the pricing witness: 2 units at 5.00 with a 10
percent discount, paid with 100.00. -/
def wCart5 : CreateTransactionInput :=
  { customer_name := none, items := [⟨1, 2⟩], discount_percentage := 10,
    payment_method := .cash, payment_amount := 100, notes := none }

/-- Result of creating the priced sale. -/
def wCreate5 : DBState × Transaction :=
  ((createTransaction 6 "TXN-P" 1 wCart5 exState).toOption).getD (exState, wTxnCompleted)

/-- The validated line shared by the pricing and underpayment scenarios. -/
def w10ds : List ItemData :=
  [{ product_id := 1, product_name := "Widget", quantity := 2, unit_price := 5,
     total_price := 5 * ((2 : Nat) : Rat) }]

theorem createTransaction_pricing_identities_witness :
    subtotalOf w10ds = ((itemsFor wCreate5.1 wCreate5.2.id).map (·.total_price)).sum ∧
    wCreate5.2.subtotal = pgScale2 (subtotalOf w10ds) ∧
    wCreate5.2.discount_percentage = pgScale2 wCart5.discount_percentage ∧
    wCreate5.2.discount_amount =
      pgScale2 (subtotalOf w10ds * wCart5.discount_percentage / 100) ∧
    wCreate5.2.tax_amount = 0 ∧
    wCreate5.2.total_amount = pgScale2
      (subtotalOf w10ds - subtotalOf w10ds * wCart5.discount_percentage / 100 + 0) ∧
    wCreate5.2.payment_amount = pgScale2 wCart5.payment_amount ∧
    wCreate5.2.change_amount = pgScale2 (max 0 (wCart5.payment_amount -
      (subtotalOf w10ds - subtotalOf w10ds * wCart5.discount_percentage / 100 + 0))) :=
  ⟨(createTransaction_pricing_identities 6 "TXN-P" 1 wCart5 exState wCreate5.1
      wCreate5.2 w10ds (by decide) rfl rfl).1,
   (createTransaction_pricing_identities 6 "TXN-P" 1 wCart5 exState wCreate5.1
      wCreate5.2 w10ds (by decide) rfl rfl).2.1,
   (createTransaction_pricing_identities 6 "TXN-P" 1 wCart5 exState wCreate5.1
      wCreate5.2 w10ds (by decide) rfl rfl).2.2.1,
   (createTransaction_pricing_identities 6 "TXN-P" 1 wCart5 exState wCreate5.1
      wCreate5.2 w10ds (by decide) rfl rfl).2.2.2.1,
   (createTransaction_pricing_identities 6 "TXN-P" 1 wCart5 exState wCreate5.1
      wCreate5.2 w10ds (by decide) rfl rfl).2.2.2.2.1,
   (createTransaction_pricing_identities 6 "TXN-P" 1 wCart5 exState wCreate5.1
      wCreate5.2 w10ds (by decide) rfl rfl).2.2.2.2.2.1,
   (createTransaction_pricing_identities 6 "TXN-P" 1 wCart5 exState wCreate5.1
      wCreate5.2 w10ds (by decide) rfl rfl).2.2.2.2.2.2.1,
   (createTransaction_pricing_identities 6 "TXN-P" 1 wCart5 exState wCreate5.1
      wCreate5.2 w10ds (by decide) rfl rfl).2.2.2.2.2.2.2.1⟩

/-- Splitting the inclusive-upper-bound filter of the revenue queries: the
rows with `lo ≤ created_at ≤ hi` are exactly the rows of the calendar
window `[lo, hi)` plus the rows created at the boundary instant `hi`. -/
theorem window_filter_split (lo hi : Nat) (hlh : lo ≤ hi) (l : List Transaction) :
    ((l.filter (fun t =>
        decide (t.status = .completed ∧ lo ≤ t.created_at ∧ t.created_at ≤ hi))).map
          (·.total_amount)).sum
      = ((l.filter (fun t =>
          decide (t.status = .completed ∧ lo ≤ t.created_at ∧ t.created_at < hi))).map
            (·.total_amount)).sum
        + ((l.filter (fun t =>
            decide (t.status = .completed ∧ t.created_at = hi))).map (·.total_amount)).sum
    ∧ (l.filter (fun t =>
        decide (t.status = .completed ∧ lo ≤ t.created_at ∧ t.created_at ≤ hi))).length
      = (l.filter (fun t =>
          decide (t.status = .completed ∧ lo ≤ t.created_at ∧ t.created_at < hi))).length
        + (l.filter (fun t =>
            decide (t.status = .completed ∧ t.created_at = hi))).length := by
  induction l with
  | nil => constructor <;> simp
  | cons t l ih =>
      obtain ⟨ih1, ih2⟩ := ih
      by_cases hC : t.status = .completed ∧ lo ≤ t.created_at ∧ t.created_at ≤ hi
      · by_cases hB : t.status = .completed ∧ t.created_at = hi
        · have hH : ¬(t.status = .completed ∧ lo ≤ t.created_at ∧ t.created_at < hi) := by
            rintro ⟨_, _, hr⟩
            omega
          rw [List.filter_cons_of_pos (p := fun (u : Transaction) => decide (u.status = TxStatus.completed ∧ lo ≤ u.created_at ∧ u.created_at ≤ hi)) (decide_eq_true hC),
            List.filter_cons_of_neg (p := fun (u : Transaction) => decide (u.status = TxStatus.completed ∧ lo ≤ u.created_at ∧ u.created_at < hi)) (by simpa using hH),
            List.filter_cons_of_pos (p := fun (u : Transaction) => decide (u.status = TxStatus.completed ∧ u.created_at = hi)) (decide_eq_true hB)]
          constructor
          · simp only [List.map_cons, List.sum_cons]
            rw [ih1]
            ring
          · simp only [List.length_cons]
            omega
        · have hH : t.status = .completed ∧ lo ≤ t.created_at ∧ t.created_at < hi := by
            refine ⟨hC.1, hC.2.1, ?_⟩
            rcases Nat.lt_or_ge t.created_at hi with hlt | hge
            · exact hlt
            · exact absurd ⟨hC.1, by omega⟩ hB
          rw [List.filter_cons_of_pos (p := fun (u : Transaction) => decide (u.status = TxStatus.completed ∧ lo ≤ u.created_at ∧ u.created_at ≤ hi)) (decide_eq_true hC),
            List.filter_cons_of_pos (p := fun (u : Transaction) => decide (u.status = TxStatus.completed ∧ lo ≤ u.created_at ∧ u.created_at < hi)) (decide_eq_true hH),
            List.filter_cons_of_neg (p := fun (u : Transaction) => decide (u.status = TxStatus.completed ∧ u.created_at = hi)) (by simpa using hB)]
          constructor
          · simp only [List.map_cons, List.sum_cons]
            rw [ih1]
            ring
          · simp only [List.length_cons]
            omega
      · have hH : ¬(t.status = .completed ∧ lo ≤ t.created_at ∧ t.created_at < hi) := by
          rintro ⟨hs, hl, hr⟩
          exact hC ⟨hs, hl, by omega⟩
        have hB : ¬(t.status = .completed ∧ t.created_at = hi) := by
          rintro ⟨hs, hr⟩
          exact hC ⟨hs, by omega, by omega⟩
        rw [List.filter_cons_of_neg (p := fun (u : Transaction) => decide (u.status = TxStatus.completed ∧ lo ≤ u.created_at ∧ u.created_at ≤ hi)) (by simpa using hC),
          List.filter_cons_of_neg (p := fun (u : Transaction) => decide (u.status = TxStatus.completed ∧ lo ≤ u.created_at ∧ u.created_at < hi)) (by simpa using hH),
          List.filter_cons_of_neg (p := fun (u : Transaction) => decide (u.status = TxStatus.completed ∧ u.created_at = hi)) (by simpa using hB)]
        exact ⟨by rw [ih1], ih2⟩

/-- C7 (amended): both revenue aggregates restrict to status `completed` —
pending and cancelled rows never count — but their windows include the
upper boundary instant: each aggregate equals the calendar-window
(`[start, nextStart)`) sum of the spec plus the completed rows created
exactly at `nextStart`, which the spec's window excludes. -/
theorem revenue_window_decomposition (lo hi : Nat) (s : DBState) (hlh : lo ≤ hi) :
    (getTodaySalesSummary lo hi s).1 = specWindowSum lo hi s + boundarySum hi s ∧
    (getTodaySalesSummary lo hi s).2 = specWindowCount lo hi s + boundaryCount hi s ∧
    getMonthlyRevenue lo hi s = specWindowSum lo hi s + boundarySum hi s := by
  obtain ⟨h1, h2⟩ := window_filter_split lo hi hlh s.transactions
  exact ⟨h1, h2, h1⟩

theorem revenue_window_decomposition_witness :
    (getTodaySalesSummary 0 100 boundaryState).1 =
      specWindowSum 0 100 boundaryState + boundarySum 100 boundaryState ∧
    (getTodaySalesSummary 0 100 boundaryState).2 =
      specWindowCount 0 100 boundaryState + boundaryCount 100 boundaryState ∧
    getMonthlyRevenue 0 100 boundaryState =
      specWindowSum 0 100 boundaryState + boundarySum 100 boundaryState :=
  revenue_window_decomposition 0 100 boundaryState (by decide)

/-- C8: every item row a sale writes snapshots the name and selling price
the catalog held at creation time (rows present before are untouched), and
updateProduct — whatever fields it rewrites, including name and
selling_price — never touches the transaction_items (or transactions)
table, so existing snapshots are never re-derived. -/
theorem snapshot_immutable_under_updateProduct
    (now now2 : Nat) (tn : String) (uid : Nat) (input : CreateTransactionInput)
    (uinput : UpdateProductInput) (s su s2 : DBState) (txn : Transaction)
    (p2 : Product) (it : TransactionItem) :
    (createTransaction now tn uid input s = .ok (s2, txn) →
      it ∈ s2.transaction_items →
      it ∈ s.transaction_items ∨
        ∃ p, findProduct s it.product_id = some p ∧ it.product_name = p.name ∧
          it.unit_price = p.selling_price)
    ∧ (updateProduct now2 uinput s = .ok (su, p2) →
      su.transaction_items = s.transaction_items ∧ su.transactions = s.transactions) := by
  constructor
  · intro h hit
    obtain ⟨ds, hv, htxn, ha⟩ := createTransaction_ok_elim h
    obtain ⟨newIts, hitems0, hview⟩ := applyItemsData_ok_items ha
    have hitems : s2.transaction_items = s.transaction_items ++ newIts := hitems0
    rw [hitems] at hit
    rcases List.mem_append.mp hit with hl | hr
    · exact Or.inl hl
    · right
      obtain ⟨_, _, d, hd, hpid, hname, _, hunit, _⟩ := view_mem hview it hr
      obtain ⟨p, hfind, hdname, hdunit, _, _⟩ := validateItems_ok_spec hv d hd
      refine ⟨p, ?_, ?_, ?_⟩
      · rw [hpid]; exact hfind
      · rw [hname, hdname]
      · rw [hunit, hdunit]
  · intro h
    unfold updateProduct at h
    split at h
    · cases h
    · rename_i existing hex
      dsimp only at h
      split at h
      · cases h
      · split at h
        · cases h
        · cases h
          exact ⟨rfl, rfl⟩

/-- The single item row produced by the pricing-witness sale. -/
def wItem5 : TransactionItem :=
  { id := 1, transaction_id := 1, product_id := 1, product_name := "Widget",
    quantity := 2, unit_price := 5, total_price := 5 * ((2 : Nat) : Rat), created_at := 6 }

/-- A catalog edit renaming product 1 and changing its selling price. -/
def wUpd : UpdateProductInput :=
  { id := 1, name := some "Gadget", description := none, barcode := none,
    category_id := none, purchase_price := none, selling_price := some 9,
    stock_quantity := none, min_stock := none, image_url := none, is_active := none }

/-- Result of that catalog edit against the 5-unit store. -/
def wUpdResult : DBState × Product :=
  ((updateProduct 9 wUpd exState).toOption).getD (exState, exProduct1)

theorem snapshot_immutable_under_updateProduct_witness :
    (wItem5 ∈ exState.transaction_items ∨
      ∃ p, findProduct exState wItem5.product_id = some p ∧
        wItem5.product_name = p.name ∧ wItem5.unit_price = p.selling_price)
    ∧ (wUpdResult.1.transaction_items = exState.transaction_items ∧
        wUpdResult.1.transactions = exState.transactions) :=
  ⟨(snapshot_immutable_under_updateProduct 6 9 "TXN-P" 1 wCart5 wUpd exState
      wUpdResult.1 wCreate5.1 wCreate5.2 wUpdResult.2 wItem5).1 rfl
      (by rw [show wCreate5.1.transaction_items = [wItem5] from rfl]; simp),
   (snapshot_immutable_under_updateProduct 6 9 "TXN-P" 1 wCart5 wUpd exState
      wUpdResult.1 wCreate5.1 wCreate5.2 wUpdResult.2 wItem5).2 rfl⟩

/-- C9: createTransaction never consults `is_active`: a sale of a
soft-deleted (inactive) product row with sufficient stock succeeds, is
persisted as completed and decrements the stock, even though getProductById
reports exactly that product as not found. -/
theorem createTransaction_ignores_is_active
    (now : Nat) (tn : String) (uid : Nat) (s : DBState) (pid q : Nat) (p : Product)
    (pay : Rat) (pm : PaymentMethod)
    (hnodup : (s.products.map (·.id)).Nodup)
    (hfind : findProduct s pid = some p)
    (hinact : p.is_active = false)
    (hq : (q : Int) ≤ p.stock_quantity) :
    (∃ s2 txn, createTransaction now tn uid
        { customer_name := none, items := [⟨pid, q⟩], discount_percentage := 0,
          payment_method := pm, payment_amount := pay, notes := none } s = .ok (s2, txn) ∧
        txn.status = .completed ∧ stockQ s2 pid = some (p.stock_quantity - (q : Int)))
    ∧ getProductById s pid = none := by
  have hv : validateItems s [⟨pid, q⟩] =
      .ok [⟨pid, p.name, q, p.selling_price, p.selling_price * (q : Rat)⟩] := by
    unfold validateItems
    rw [hfind]
    dsimp only
    rw [if_neg (Int.not_lt.mpr hq)]
    rfl
  constructor
  · have hex : ∃ s2, createTransaction now tn uid
        { customer_name := none, items := [⟨pid, q⟩], discount_percentage := 0,
          payment_method := pm, payment_amount := pay, notes := none } s
        = .ok (s2, mkTransaction now tn uid
            { customer_name := none, items := [⟨pid, q⟩], discount_percentage := 0,
              payment_method := pm, payment_amount := pay, notes := none } s
            [⟨pid, p.name, q, p.selling_price, p.selling_price * (q : Rat)⟩]) :=
      createTransaction_exists_ok hv
    obtain ⟨s2, h2⟩ := hex
    refine ⟨s2, _, h2, rfl, ?_⟩
    obtain ⟨ds2, hv2, htxn, ha⟩ := createTransaction_ok_elim h2
    rw [hv] at hv2
    cases hv2
    have hstock := applyItemsData_ok_stock ha pid
    have hstock2 : stockQ s2 pid = (stockQ s pid).map
        (fun x => x - dataQtySum [⟨pid, p.name, q, p.selling_price,
          p.selling_price * (q : Rat)⟩] pid) := hstock
    have hsum : dataQtySum [⟨pid, p.name, q, p.selling_price,
        p.selling_price * (q : Rat)⟩] pid = (q : Int) := by
      simp [dataQtySum]
    rw [hstock2, hsum]
    unfold stockQ
    rw [hfind]
    rfl
  · unfold getProductById
    rw [List.find?_eq_none]
    intro x hx
    simp only [Bool.and_eq_true, beq_iff_eq]
    rintro ⟨hxid, hxact⟩
    have hpmem : p ∈ s.products := List.mem_of_find?_eq_some hfind
    have hpid : p.id = pid := by
      have h1 : List.find? (fun a => a.id == pid) s.products = some p := hfind
      simpa using List.find?_some h1
    have hxp : x = p := List.inj_on_of_nodup_map hnodup hx hpmem (by rw [hxid, hpid])
    rw [hxp, hinact] at hxact
    cases hxact

/-- The soft-deleted version of the catalog row. -/
def inactiveProduct : Product := { exProduct1 with is_active := false }

/-- A store whose only product row is soft-deleted. -/
def inactiveState : DBState :=
  { categories := [], products := [inactiveProduct], transactions := [],
    transaction_items := [] }

theorem createTransaction_ignores_is_active_witness :
    (∃ s2 txn, createTransaction 2 "TXN-I" 1
        { customer_name := none, items := [⟨1, 2⟩], discount_percentage := 0,
          payment_method := .cash, payment_amount := 100, notes := none }
        inactiveState = .ok (s2, txn) ∧
        txn.status = .completed ∧
        stockQ s2 1 = some (inactiveProduct.stock_quantity - ((2 : Nat) : Int)))
    ∧ getProductById inactiveState 1 = none :=
  createTransaction_ignores_is_active 2 "TXN-I" 1 inactiveState 1 2 inactiveProduct
    100 .cash (by decide) rfl rfl (by decide)

/-- C10: createTransaction never compares payment_amount with the total: a
validated cart whose payment falls short of the total is still created with
status completed, stock is decremented, and the change is 0 — underpayment
is never rejected. -/
theorem createTransaction_accepts_underpayment
    (now : Nat) (tn : String) (uid : Nat) (input : CreateTransactionInput)
    (s : DBState) (ds : List ItemData) (q0 : Nat)
    (hv : validateItems s input.items = .ok ds)
    (hpay : input.payment_amount <
      subtotalOf ds - subtotalOf ds * input.discount_percentage / 100 + 0) :
    ∃ s2 txn, createTransaction now tn uid input s = .ok (s2, txn) ∧
      txn.status = .completed ∧ txn.change_amount = 0 ∧
      stockQ s2 q0 = (stockQ s q0).map (fun x => x - dataQtySum ds q0) := by
  obtain ⟨s2, h2⟩ := createTransaction_exists_ok hv
  refine ⟨s2, _, h2, rfl, ?_, ?_⟩
  · have hch : (mkTransaction now tn uid input s ds).change_amount
        = pgScale2 (max 0 (input.payment_amount -
            (subtotalOf ds - subtotalOf ds * input.discount_percentage / 100 + 0))) := rfl
    rw [hch, max_eq_left (sub_nonpos.mpr (le_of_lt hpay))]
    norm_num [pgScale2, roundHalfAway]
  · obtain ⟨ds2, hv2, htxn, ha⟩ := createTransaction_ok_elim h2
    rw [hv] at hv2
    cases hv2
    exact applyItemsData_ok_stock ha q0

/-- A 2-unit cart paid with 1.00 against a 10.00 total. -/
def wCart10 : CreateTransactionInput :=
  { customer_name := none, items := [⟨1, 2⟩], discount_percentage := 0,
    payment_method := .cash, payment_amount := 1, notes := none }

theorem createTransaction_accepts_underpayment_witness :
    ∃ s2 txn, createTransaction 8 "TXN-U" 1 wCart10 exState = .ok (s2, txn) ∧
      txn.status = .completed ∧ txn.change_amount = 0 ∧
      stockQ s2 1 = (stockQ exState 1).map (fun x => x - dataQtySum w10ds 1) :=
  createTransaction_accepts_underpayment 8 "TXN-U" 1 wCart10 exState w10ds 1 rfl
    (by norm_num [subtotalOf, w10ds, wCart10])
